import Mathlib

/-!
Verification of the event-processor core (cmd/event-processor/main.go).

The development shallowly embeds the Go program:
* JSON payload trees (`map[string]any` values produced by `encoding/json`)
  become the closed sum type `GoVal`;
* DynamoDB attribute values (`dynamodb/types.AttributeValueMember*`) become
  the sum type `AttrVal`;
* the attribute codec `toAttr` / `toAttrMap` is translated clause by clause;
* the DynamoDB-backed idempotent writer `persistEventOnce` is translated with
  the store modelled as two association lists (the idempotency table keyed by
  `pk`, the events table keyed by the pair (partition key `tenant_id`,
  sort key `sk`)) and a fault oracle standing for infrastructure failures;
* schema loading/compilation (`loadSchema`, backed by the embedded schema
  filesystem and gojsonschema) and payload validation (`validate`) are
  translated with the external schema repository and the compiled-schema
  evaluator as explicit oracle parameters;
* the per-message pipeline `handleRecord` and the batch loop `handler` are
  translated clause by clause, with `encoding/json` unmarshalling of the
  message body as an explicit oracle parameter.

Go numeric payload values (`float64` after JSON decoding, or `int`/`int64`/
`int32` when constructed in code) are encoded by the program via
`fmt.Sprintf("%v", t)`, which is the shortest round-tripping decimal form and
is injective on each numeric kind.  Following the specification's data model
(one numeric kind, "preserving original textual/numeric form"), a numeric
value is represented here by that textual form, so that no floating-point
semantics is needed.
-/

/-- A JSON-like dynamically typed Go value: the payload domain. `vnum`
carries the `fmt.Sprintf` textual form of the Go numeric value. -/
inductive GoVal where
  | vnull
  | vstr (s : String)
  | vbool (b : Bool)
  | vnum (n : String)
  | varr (elems : List GoVal)
  | vmap (entries : List (String × GoVal))
deriving Repr

/-- DynamoDB attribute values, mirroring
`dynamodb/types.AttributeValueMemberS/N/BOOL/NULL/L/M`. The `N` member keeps
the number's textual form, as the Go SDK does. -/
inductive AttrVal where
  | S (v : String)
  | N (v : String)
  | BOOL (v : Bool)
  | NULL (v : Bool)
  | L (v : List AttrVal)
  | M (v : List (String × AttrVal))
deriving Repr

mutual

/-- Embedding of `toAttr` (main.go lines 247-271): converts a Go value into a
DynamoDB attribute value.  The `nil`, `string`, `bool`, numeric, `[]any` and
`map[string]any` cases are translated clause by clause; the `default`
(JSON-marshal fallback) clause is unreachable on the JSON payload domain
`GoVal`, which contains exactly the shapes `encoding/json` produces. -/
def toAttr : GoVal → AttrVal
  | .vnull => .NULL true
  | .vstr s => .S s
  | .vbool b => .BOOL b
  | .vnum n => .N n
  | .varr l => .L (toAttrList l)
  | .vmap m => .M (toAttrEntries m)

/-- Embedding of the `[]any` loop inside `toAttr`: element-wise conversion. -/
def toAttrList : List GoVal → List AttrVal
  | [] => []
  | v :: vs => toAttr v :: toAttrList vs

/-- Embedding of `toAttrMap` (main.go lines 238-244) on the entry list of the
Go map: key-preserving value conversion.  Go map iteration order is
unspecified, but the resulting attribute map does not depend on it; here the
map is its entry list. -/
def toAttrEntries : List (String × GoVal) → List (String × AttrVal)
  | [] => []
  | (k, v) :: rest => (k, toAttr v) :: toAttrEntries rest

end

/-- Embedding of `toAttrMap` at the top level (applied to `env.Payload`). -/
def toAttrMap (m : List (String × GoVal)) : List (String × AttrVal) :=
  toAttrEntries m

mutual

/-- Modelled from the spec: the decoder of the codec round-trip property
("encoding then decoding (where a decoder is defined) any
JSON-primitive/container value yields a value equal to the original").  The
repository defines no decoder, so this is the natural partial inverse of the
type mapping of spec section 4.2: null-attribute→null, string-attribute→
string, boolean-attribute→boolean, number-attribute→numeric, list→list,
map→map; any other attribute shape is not decoded. -/
def fromAttr : AttrVal → Option GoVal
  | .NULL b => if b then some .vnull else none
  | .S s => some (.vstr s)
  | .BOOL b => some (.vbool b)
  | .N n => some (.vnum n)
  | .L l => (fromAttrList l).map .varr
  | .M m => (fromAttrEntries m).map .vmap

/-- Modelled from the spec: element-wise decoder for list attributes. -/
def fromAttrList : List AttrVal → Option (List GoVal)
  | [] => some []
  | a :: rest =>
    match fromAttr a, fromAttrList rest with
    | some v, some vs => some (v :: vs)
    | _, _ => none

/-- Modelled from the spec: entry-wise decoder for map attributes. -/
def fromAttrEntries : List (String × AttrVal) → Option (List (String × GoVal))
  | [] => some []
  | (k, a) :: rest =>
    match fromAttr a, fromAttrEntries rest with
    | some v, some vs => some ((k, v) :: vs)
    | _, _ => none

end

/-- Embedding of the `Envelope` struct (main.go lines 57-64).  As in Go, the
optional string fields `route` and `created_at` use `""` as the zero value
meaning "absent". -/
structure Envelope where
  tenant_id : String
  event_id : String
  event_type : String
  route : String
  payload : List (String × GoVal)
  created_at : String

/-- Embedding of `AppConfig` (main.go lines 31-37): the retention windows in
days, as (possibly negative) machine integers.  The table names select the
two components of `Store` below and the region only configures the SDK, so
they do not appear in the model. -/
structure AppConfig where
  eventsTTLDays : Int
  idemTTLDays : Int

/-- The item put into the idempotency table (main.go lines 108-116), minus
its key `pk`, which is the association-list key in `Store`.  A `none` field
is an attribute that is not set on the item. -/
structure IdemItem where
  created_at : String
  event_type : String
  ttl : Option Int

/-- The item put into the events table (main.go lines 124-142).  A `none`
field is an attribute that is not set on the item; `retries` is the `N`
attribute's textual value. -/
structure EventItem where
  tenant_id : String
  sk : String
  event_type : String
  status : String
  payload : List (String × AttrVal)
  retries : String
  tenant_id_created_at : String
  route : Option String
  reason : Option String
  ttl : Option Int

/-- The two DynamoDB tables, as association lists.  The idempotency table is
keyed by its hash key `pk`; the events table by its (hash, range) key pair
(`tenant_id`, `sk`) — the key schema declared in infra/main.tf.  Every item
in either table carries its key attributes, so the condition expression
`attribute_not_exists(pk)` (resp. `attribute_not_exists(sk)`) fails exactly
when an item with the same key already exists. -/
structure Store where
  idem : List (String × IdemItem)
  events : List ((String × String) × EventItem)

/-- Errors returned by `TransactWriteItems`, as matched by the error handling
of `persistEventOnce` (main.go lines 164-180): a
`TransactionCanceledException` carrying per-item cancellation reason codes, a
plain `ConditionalCheckFailedException`, or any other SDK/service error.
Each constructor carries the text of `err.Error()`. -/
inductive DBErr where
  | transactionCanceled (codes : List (Option String)) (msg : String)
  | conditionalCheckFailed (msg : String)
  | otherFailure (msg : String)

/-- The `err.Error()` text of a store error. -/
def DBErr.msgOf : DBErr → String
  | .transactionCanceled _ m => m
  | .conditionalCheckFailed m => m
  | .otherFailure m => m

/-- Occurrence of the character list `sub` inside a character list: `sub` is
a prefix of some suffix. -/
def listContainsSub (sub : List Char) : List Char → Bool
  | [] => sub.isEmpty
  | c :: rest => sub.isPrefixOf (c :: rest) || listContainsSub sub rest

/-- Embedding of Go `strings.Contains s sub`: `sub` occurs somewhere in
`s`. -/
def containsSub (s sub : String) : Bool :=
  listContainsSub sub.toList s.toList

/-- Embedding of the duplicate-detection path of `persistEventOnce`
(main.go lines 164-180), in source order: a `TransactionCanceledException`
with some cancellation reason code `ConditionalCheckFailed` is a duplicate;
otherwise (fallthrough) a `ConditionalCheckFailedException`, or any error
whose text contains `ConditionalCheckFailed`, is a duplicate. -/
def isDuplicateErr : DBErr → Bool
  | .transactionCanceled codes msg =>
    codes.any (fun c => c = some "ConditionalCheckFailed")
      || containsSub msg "ConditionalCheckFailed"
  | .conditionalCheckFailed _ => true
  | .otherFailure msg => containsSub msg "ConditionalCheckFailed"

/-- Building the idempotency item (main.go lines 106-116).  `nowStr` is the
RFC3339Nano rendering of the wall clock at the call and `nowUnix` its Unix
seconds; `24 * 60 * 60` seconds embed the `days * 24 * time.Hour` offset. -/
def buildIdemItem (cfg : AppConfig) (nowStr : String) (nowUnix : Int) (env : Envelope) :
    IdemItem :=
  { created_at := nowStr
    event_type := env.event_type
    ttl := if cfg.idemTTLDays > 0 then some (nowUnix + cfg.idemTTLDays * 86400) else none }

/-- The `created` timestamp of the event item (main.go lines 119-122): the
envelope's `created_at`, or the current time when absent. -/
def createdOf (nowStr : String) (env : Envelope) : String :=
  if env.created_at = "" then nowStr else env.created_at

/-- The events-table sort key (main.go line 123): `created#event_id`. -/
def skOf (nowStr : String) (env : Envelope) : String :=
  createdOf nowStr env ++ "#" ++ env.event_id

/-- Building the event item (main.go lines 118-142). -/
def buildEventItem (cfg : AppConfig) (nowStr : String) (nowUnix : Int) (env : Envelope)
    (status reason : String) : EventItem :=
  let created := createdOf nowStr env
  { tenant_id := env.tenant_id
    sk := skOf nowStr env
    event_type := env.event_type
    status := status
    payload := toAttrMap env.payload
    retries := "0"
    tenant_id_created_at := env.tenant_id ++ "#" ++ created
    route := if env.route = "" then none else some env.route
    reason := if reason = "" then none else some reason
    ttl := if cfg.eventsTTLDays > 0 then some (nowUnix + cfg.eventsTTLDays * 86400) else none }

/-- The idempotency-table key (main.go line 107): `tenant_id#event_id`. -/
def pkOf (env : Envelope) : String :=
  env.tenant_id ++ "#" ++ env.event_id

/-- Embedding of the `TransactWriteItems` call issued by `persistEventOnce`
(main.go lines 144-163): two `Put`s, one per table, each guarded by
`attribute_not_exists` of the item's key.  The `fault` oracle injects an
infrastructure failure (throttling, network, unknown table, ...), in which
case nothing is written.  Otherwise the store behaves as DynamoDB specifies:
if either condition check fails the whole transaction is cancelled with no
effect, and the cancellation reasons list carries `ConditionalCheckFailed`
for each failing item and `None` for the others; if both checks pass, both
items are written atomically. -/
def transactPutBoth (s : Store) (pk : String) (idemItem : IdemItem)
    (evtKey : String × String) (evtItem : EventItem) (fault : Option DBErr) :
    Except DBErr Store :=
  match fault with
  | some e => .error e
  | none =>
    let idemExists := (s.idem.lookup pk).isSome
    let evtExists := (s.events.lookup evtKey).isSome
    if idemExists || evtExists then
      .error (.transactionCanceled
        [some (if idemExists then "ConditionalCheckFailed" else "None"),
         some (if evtExists then "ConditionalCheckFailed" else "None")]
        "transaction canceled")
    else
      .ok { idem := (pk, idemItem) :: s.idem, events := (evtKey, evtItem) :: s.events }

/-- The `(written, err)` pair returned by `persistEventOnce`, together with
the store it leaves behind. -/
structure PersistResult where
  written : Bool
  err : Option DBErr
  store : Store

/-- Embedding of `persistEventOnce` (main.go lines 105-183): build the
idempotency item and the event item, issue the atomic conditional dual-write,
and classify the outcome — `(true, nil)` on success, `(false, nil)` when the
error is a conditional-check failure (a duplicate), `(false, err)` on any
other error. -/
def persistEventOnce (cfg : AppConfig) (nowStr : String) (nowUnix : Int) (s : Store)
    (env : Envelope) (status reason : String) (fault : Option DBErr) : PersistResult :=
  let pk := pkOf env
  let idemItem := buildIdemItem cfg nowStr nowUnix env
  let evtItem := buildEventItem cfg nowStr nowUnix env status reason
  match transactPutBoth s pk idemItem (env.tenant_id, skOf nowStr env) evtItem fault with
  | .ok s' => ⟨true, none, s'⟩
  | .error e => if isDuplicateErr e then ⟨false, none, s⟩ else ⟨false, some e, s⟩

/-- A compiled schema, as used by `validate`: evaluating it on a payload
either fails with a schema evaluation error (gojsonschema
`schema.Validate` returning `err`, whose `err.Error()` text is carried) or
yields the list of the individual validation error descriptions
(`e.String()` for each `e` in `res.Errors()`, in validator-reported order;
`res.Valid()` holds exactly when this list is empty). -/
def SchemaFn : Type := List (String × GoVal) → Except String (List String)

/-- The compiled-schema cache `SchemaCache.byType` (main.go lines 41-50), as
an association list keyed by event type.  The mutex only serialises access
and does not affect the sequential semantics. -/
def SchemaCache : Type := List (String × SchemaFn)

/-- The external schema repository and compiler behind `loadSchema`:
`readFile name` embeds `embschemas.FS.ReadFile` (schema document bytes, as a
string, or a read error text), and `compile doc` embeds
`gojsonschema.NewSchema` (a compiled schema or a compile error text). -/
structure SchemaRepo where
  readFile : String → Except String String
  compile : String → Except String SchemaFn

/-- Embedding of `loadSchema` (main.go lines 187-209): return the cached
compiled schema on a hit; on a miss read `<event_type>.json` from the
embedded filesystem (wrapping a failure as
`embed read schema <file>: <detail>`), compile it (wrapping a failure as
`compile schema: <detail>`), and insert the result into the cache. -/
def loadSchema (repo : SchemaRepo) (c : SchemaCache) (eventType : String) :
    Except String SchemaFn × SchemaCache :=
  match c.lookup eventType with
  | some s => (.ok s, c)
  | none =>
    let file := eventType ++ ".json"
    match repo.readFile file with
    | .error e => (.error ("embed read schema " ++ file ++ ": " ++ e), c)
    | .ok b =>
      match repo.compile b with
      | .error e => (.error ("compile schema: " ++ e), c)
      | .ok schema => (.ok schema, (eventType, schema) :: c)

/-- Embedding of `validate` (main.go lines 213-231): load the schema for the
envelope's event type, degrading a load failure to
`(false, "schema load error: <detail>")`; evaluate the payload against it,
degrading an evaluation error to `(false, err.Error())`; otherwise the
envelope is valid exactly when the validator reports no errors, and when
invalid the reason is the `"; "`-join of all error descriptions.  The cache
resulting from the load is returned alongside. -/
def validate (repo : SchemaRepo) (c : SchemaCache) (env : Envelope) :
    (Bool × String) × SchemaCache :=
  match loadSchema repo c env.event_type with
  | (.error e, c') => ((false, "schema load error: " ++ e), c')
  | (.ok schema, c') =>
    match schema env.payload with
    | .error e => ((false, e), c')
    | .ok msgs =>
      if msgs.isEmpty then ((true, ""), c')
      else ((false, String.intercalate "; " msgs), c')

/-- Outcome of `handleRecord`: Go's `error` result, `none` meaning `nil`
(the message is acknowledged) and `some msg` a processing failure. -/
def GoError : Type := Option String

/-- Embedding of `json.Unmarshal` on the SQS message body (main.go line 277):
an oracle mapping the body either to an error text (malformed JSON) or to
the decoded `Envelope`. -/
def Decoder : Type := String → Except String Envelope

/-- Embedding of `handleRecord` (main.go lines 275-304): decode the body
(failing with `invalid JSON: <detail>`), reject an envelope with an empty
`tenant_id`, `event_id` or `event_type` (failing with
`missing required envelope fields`), validate, derive
`status = READY`/`INVALID`, persist once (failing with
`persist error: <detail>` on a non-duplicate error), and acknowledge —
returning `nil` — both when newly written and when a duplicate.  The
resulting cache and store are returned alongside. -/
def handleRecord (decode : Decoder) (repo : SchemaRepo) (cfg : AppConfig)
    (nowStr : String) (nowUnix : Int) (fault : Option DBErr)
    (c : SchemaCache) (s : Store) (body : String) :
    GoError × SchemaCache × Store :=
  match decode body with
  | .error e => (some ("invalid JSON: " ++ e), c, s)
  | .ok env =>
    if env.tenant_id = "" || env.event_id = "" || env.event_type = "" then
      (some "missing required envelope fields", c, s)
    else
      match validate repo c env with
      | ((valid, reason), c') =>
        let status := if valid then "READY" else "INVALID"
        let r := persistEventOnce cfg nowStr nowUnix s env status reason fault
        match r.err with
        | some e => (some ("persist error: " ++ e.msgOf), c', r.store)
        | none => (none, c', r.store)

/-- Embedding of `handler` (main.go lines 307-315): process the batch's
records in delivery order, stopping at — and returning — the first record
failure, and returning `nil` when every record succeeds. -/
def handler (decode : Decoder) (repo : SchemaRepo) (cfg : AppConfig)
    (nowStr : String) (nowUnix : Int) (fault : Option DBErr)
    (c : SchemaCache) (s : Store) : List String → GoError × SchemaCache × Store
  | [] => (none, c, s)
  | body :: rest =>
    match handleRecord decode repo cfg nowStr nowUnix fault c s body with
    | (some e, c', s') => (some e, c', s')
    | (none, c', s') => handler decode repo cfg nowStr nowUnix fault c' s' rest

/-- One request to `persistEventOnce`: the arguments of a call, including the
wall clock at the call and the injected infrastructure fault, if any. -/
structure PReq where
  env : Envelope
  status : String
  reason : String
  nowStr : String
  nowUnix : Int
  fault : Option DBErr

/-- Runs a sequence of `persistEventOnce` calls, threading the store. -/
def runPersists (cfg : AppConfig) (s : Store) : List PReq → Store
  | [] => s
  | r :: rs =>
    runPersists cfg (persistEventOnce cfg r.nowStr r.nowUnix s r.env r.status r.reason r.fault).store rs

/-- An events-table key belongs to the pair (tenant `t`, event `e`) when its
partition key is `t` and its sort key has the form `created#e`. -/
def forPair (t e : String) (k : String × String) : Bool :=
  k.1 = t && ("#" ++ e).toList.isSuffixOf k.2.toList

/-- Number of ledger records for the pair (tenant `t`, event `e`). -/
def ledgerCountFor (s : Store) (t e : String) : Nat :=
  s.events.countP (fun kv => forPair t e kv.1)

/-- Every record of the batch is processed successfully when run in delivery
order with the state threaded through (the success side of the batch
semantics of `handler`). -/
def batchOk (decode : Decoder) (repo : SchemaRepo) (cfg : AppConfig)
    (nowStr : String) (nowUnix : Int) (fault : Option DBErr) :
    SchemaCache → Store → List String → Bool
  | _, _, [] => true
  | c, s, body :: rest =>
    match handleRecord decode repo cfg nowStr nowUnix fault c s body with
    | (some _, _, _) => false
    | (none, c', s') => batchOk decode repo cfg nowStr nowUnix fault c' s' rest

/-- Concrete fixtures used by the witness theorems. -/
def cfg0 : AppConfig := ⟨0, 0⟩

/-- Configuration with negative retention windows. -/
def cfgNeg : AppConfig := ⟨-3, -1⟩

/-- Configuration with positive retention windows. -/
def cfgPos : AppConfig := ⟨90, 7⟩

/-- The empty store. -/
def emptyStore : Store := ⟨[], []⟩

/-- A store already holding the idempotency record for (t1, e1). -/
def dupStore : Store := ⟨[("t1#e1", ⟨"T0", "user.created", none⟩)], []⟩

/-- A well-formed envelope. -/
def envA : Envelope :=
  ⟨"t1", "e1", "user.created", "",
   [("id", .vstr "123"), ("email", .vstr "user@example.com")], "2024-01-01T00:00:00Z"⟩

/-- Same (tenant, event) pair as `envA`, different route, payload and
`created_at`. -/
def envB : Envelope :=
  ⟨"t1", "e1", "user.created", "r2", [("id", .vstr "123")], "2024-02-02T00:00:00Z"⟩

/-- An envelope with an empty `tenant_id`. -/
def envNoTenant : Envelope := ⟨"", "e1", "user.created", "", [], ""⟩

/-- A compiled schema accepting every payload. -/
def sfAccept : SchemaFn := fun _ => .ok []

/-- A compiled schema rejecting every payload with one error description. -/
def sfReject : SchemaFn := fun _ => .ok ["email: email is required"]

/-- A schema repository whose documents all compile to `sfAccept`. -/
def repoOK : SchemaRepo := ⟨fun _ => .ok "schemadoc", fun _ => .ok sfAccept⟩

/-- A schema repository whose documents all compile to `sfReject`. -/
def repoReject : SchemaRepo := ⟨fun _ => .ok "schemadoc", fun _ => .ok sfReject⟩

/-- A schema repository with no readable documents. -/
def repoMissing : SchemaRepo :=
  ⟨fun f => .error ("open " ++ f ++ ": file does not exist"), fun _ => .error "unused"⟩

/-- A body decoder fixture: three known bodies decode, the rest fail. -/
def decodeFix : Decoder := fun body =>
  if body = "A" then .ok envA
  else if body = "B" then .ok envB
  else if body = "N" then .ok envNoTenant
  else .error "unexpected end of JSON input"

mutual

/-- Round-trip of the codec on a single value. -/
theorem fromAttr_toAttr : ∀ v : GoVal, fromAttr (toAttr v) = some v
  | .vnull => rfl
  | .vstr _ => rfl
  | .vbool _ => rfl
  | .vnum _ => rfl
  | .varr l => by
      rw [toAttr, fromAttr, fromAttrList_toAttrList l, Option.map_some']
  | .vmap m => by
      rw [toAttr, fromAttr, fromAttrEntries_toAttrEntries m, Option.map_some']

/-- Round-trip of the codec on a list of values. -/
theorem fromAttrList_toAttrList : ∀ l : List GoVal, fromAttrList (toAttrList l) = some l
  | [] => rfl
  | v :: vs => by
      simp only [toAttrList, fromAttrList, fromAttr_toAttr v, fromAttrList_toAttrList vs]

/-- Round-trip of the codec on map entries. -/
theorem fromAttrEntries_toAttrEntries :
    ∀ m : List (String × GoVal), fromAttrEntries (toAttrEntries m) = some m
  | [] => rfl
  | (k, v) :: rest => by
      simp only [toAttrEntries, fromAttrEntries, fromAttr_toAttr v,
        fromAttrEntries_toAttrEntries rest]

end

/-- C5: the attribute codec is deterministic and lossless on every
JSON-primitive and container value: decoding after encoding is the identity
for nulls, strings, booleans, numbers, nested lists and nested maps (and
hence on the top-level payload map), and a numeric value is encoded as a
number attribute carrying its original textual form, with no integer cast.
Determinism is inherent: `toAttr` and `toAttrMap` are total functions of
their argument alone. -/
theorem toAttr_roundtrip_lossless :
    (∀ v : GoVal, fromAttr (toAttr v) = some v)
    ∧ (∀ m : List (String × GoVal), fromAttrEntries (toAttrMap m) = some m)
    ∧ (∀ n : String, toAttr (.vnum n) = .N n) :=
  ⟨fromAttr_toAttr, fun m => fromAttrEntries_toAttrEntries m, fun _ => rfl⟩

/-- With no injected fault, `persistEventOnce` behaves as the conditional
dual-write specifies: a duplicate (either key present) returns
`(false, nil)` and leaves the store unchanged, otherwise the call returns
`(true, nil)` and inserts exactly the two built items. -/
theorem persistEventOnce_none_eq (cfg : AppConfig) (nowStr : String) (nowUnix : Int)
    (s : Store) (env : Envelope) (status reason : String) :
    persistEventOnce cfg nowStr nowUnix s env status reason none =
      if (s.idem.lookup (pkOf env)).isSome
          || (s.events.lookup (env.tenant_id, skOf nowStr env)).isSome then
        ⟨false, none, s⟩
      else
        ⟨true, none,
          { idem := (pkOf env, buildIdemItem cfg nowStr nowUnix env) :: s.idem,
            events := ((env.tenant_id, skOf nowStr env),
              buildEventItem cfg nowStr nowUnix env status reason) :: s.events }⟩ := by
  unfold persistEventOnce transactPutBoth
  by_cases h1 : (s.idem.lookup (pkOf env)).isSome <;>
    by_cases h2 : (s.events.lookup (env.tenant_id, skOf nowStr env)).isSome <;>
      simp [h1, h2, isDuplicateErr]

/-- An injected fault leaves the store unchanged and never reports a write. -/
theorem persistEventOnce_fault_eq (cfg : AppConfig) (nowStr : String) (nowUnix : Int)
    (s : Store) (env : Envelope) (status reason : String) (e : DBErr) :
    persistEventOnce cfg nowStr nowUnix s env status reason (some e) =
      if isDuplicateErr e then ⟨false, none, s⟩ else ⟨false, some e, s⟩ := by
  unfold persistEventOnce transactPutBoth
  by_cases h : isDuplicateErr e <;> simp [h]

/-- A single `persistEventOnce` call never removes an idempotency record. -/
theorem persist_idem_mono (cfg : AppConfig) (nowStr : String) (nowUnix : Int)
    (s : Store) (env : Envelope) (status reason : String) (fault : Option DBErr)
    (pk : String) (h : (s.idem.lookup pk).isSome) :
    (((persistEventOnce cfg nowStr nowUnix s env status reason fault).store).idem.lookup pk).isSome := by
  cases fault with
  | some e =>
    rw [persistEventOnce_fault_eq]
    by_cases hd : isDuplicateErr e <;> simp [hd, h]
  | none =>
    rw [persistEventOnce_none_eq]
    by_cases hc : (s.idem.lookup (pkOf env)).isSome
        || (s.events.lookup (env.tenant_id, skOf nowStr env)).isSome
    · simp [hc, h]
    · simp only [hc, if_false]
      simp only [List.lookup]
      by_cases he : pk == pkOf env <;> simp [he, h]

/-- A sequence of `persistEventOnce` calls never removes an idempotency
record. -/
theorem runPersists_idem_mono (cfg : AppConfig) (reqs : List PReq) (s : Store)
    (pk : String) (h : (s.idem.lookup pk).isSome) :
    (((runPersists cfg s reqs)).idem.lookup pk).isSome := by
  induction reqs generalizing s with
  | nil => exact h
  | cons r rs ih =>
    exact ih _ (persist_idem_mono cfg r.nowStr r.nowUnix s r.env r.status r.reason r.fault pk h)

/-- A call whose pair's idempotency record already exists is rejected as a
duplicate: `(false, nil)`, store unchanged. -/
theorem persist_duplicate_of_idem (cfg : AppConfig) (nowStr : String) (nowUnix : Int)
    (s : Store) (env : Envelope) (status reason : String)
    (h : (s.idem.lookup (pkOf env)).isSome) :
    persistEventOnce cfg nowStr nowUnix s env status reason none = ⟨false, none, s⟩ := by
  rw [persistEventOnce_none_eq]
  simp [h]

/-- The events-table key written for an envelope belongs to the envelope's
(tenant, event) pair. -/
theorem forPair_skOf (nowStr : String) (env : Envelope) :
    forPair env.tenant_id env.event_id (env.tenant_id, skOf nowStr env) = true := by
  unfold forPair skOf
  simp only [Bool.and_eq_true, decide_eq_true_eq, List.isSuffixOf_iff_suffix]
  refine ⟨trivial, ⟨(createdOf nowStr env).toList, ?_⟩⟩
  show (createdOf nowStr env).toList ++ ("#".toList ++ env.event_id.toList)
      = ((createdOf nowStr env).toList ++ "#".toList) ++ env.event_id.toList
  simp [List.append_assoc]

/-- C1: `persistEventOnce` succeeds with `(true, nil)` at most once per
(tenant_id, event_id) pair.  When a call succeeds, it adds exactly one ledger
record for the pair; and every later call for the same pair — with any
status, reason or `created_at`, after any interleaving of further persist
calls — returns `(false, nil)` and leaves the store exactly unchanged, so
the ledger keeps exactly one record for the pair. -/
theorem persistEventOnce_at_most_once (cfg : AppConfig) (nowStr : String) (nowUnix : Int)
    (s : Store) (env : Envelope) (status reason : String)
    (hw : (persistEventOnce cfg nowStr nowUnix s env status reason none).written = true) :
    (ledgerCountFor (persistEventOnce cfg nowStr nowUnix s env status reason none).store
        env.tenant_id env.event_id
      = ledgerCountFor s env.tenant_id env.event_id + 1)
    ∧ ∀ (reqs : List PReq) (env2 : Envelope) (status2 reason2 nowStr2 : String)
        (nowUnix2 : Int),
        env2.tenant_id = env.tenant_id → env2.event_id = env.event_id →
        persistEventOnce cfg nowStr2 nowUnix2
            (runPersists cfg (persistEventOnce cfg nowStr nowUnix s env status reason none).store reqs)
            env2 status2 reason2 none
          = ⟨false, none,
              runPersists cfg
                (persistEventOnce cfg nowStr nowUnix s env status reason none).store reqs⟩ := by
  by_cases hc : (s.idem.lookup (pkOf env)).isSome
      || (s.events.lookup (env.tenant_id, skOf nowStr env)).isSome
  · rw [persistEventOnce_none_eq] at hw
    simp [hc] at hw
  · have hstore : (persistEventOnce cfg nowStr nowUnix s env status reason none).store =
        { idem := (pkOf env, buildIdemItem cfg nowStr nowUnix env) :: s.idem,
          events := ((env.tenant_id, skOf nowStr env),
            buildEventItem cfg nowStr nowUnix env status reason) :: s.events } := by
      rw [persistEventOnce_none_eq]
      simp [hc]
    constructor
    · rw [hstore]
      unfold ledgerCountFor
      exact List.countP_cons_of_pos _ _ (forPair_skOf nowStr env)
    · intro reqs env2 status2 reason2 nowStr2 nowUnix2 ht he
      apply persist_duplicate_of_idem
      have hpk : pkOf env2 = pkOf env := by unfold pkOf; rw [ht, he]
      rw [hpk]
      apply runPersists_idem_mono
      rw [hstore]
      simp [List.lookup]

/-- Witness for C1 at a concrete input: a first write of (t1, e1) into the
empty store succeeds and a later call for the same pair with a different
status, reason and `created_at` is a no-op duplicate. -/
theorem persistEventOnce_at_most_once_witness :
    (ledgerCountFor (persistEventOnce cfg0 "T0" 0 emptyStore envA "READY" "" none).store
        "t1" "e1"
      = ledgerCountFor emptyStore "t1" "e1" + 1)
    ∧ persistEventOnce cfg0 "T1" 5
        (runPersists cfg0 (persistEventOnce cfg0 "T0" 0 emptyStore envA "READY" "" none).store [])
        envB "INVALID" "email: email is required" none
      = ⟨false, none,
          runPersists cfg0
            (persistEventOnce cfg0 "T0" 0 emptyStore envA "READY" "" none).store []⟩ := by
  have h := persistEventOnce_at_most_once cfg0 "T0" 0 emptyStore envA "READY" "" (by decide)
  exact ⟨h.1, h.2 [] envB "INVALID" "email: email is required" "T1" 5 rfl rfl⟩

/-- C2: `persistEventOnce` has exactly the three documented outcomes.  With
the store operating normally, the call returns `(true, nil)` and writes both
items when neither precondition key exists, and `(false, nil)` leaving the
store untouched when either exists; a store failure classified as a
conditional-check failure is also reported as `(false, nil)`; any other
store failure `e` propagates as `(false, e)` with the store untouched; and
no call ever reports `written = true` together with a non-nil error. -/
theorem persistEventOnce_three_outcomes (cfg : AppConfig) (nowStr : String) (nowUnix : Int)
    (s : Store) (env : Envelope) (status reason : String) :
    ((s.idem.lookup (pkOf env) = none ∧
        s.events.lookup (env.tenant_id, skOf nowStr env) = none) →
      persistEventOnce cfg nowStr nowUnix s env status reason none
        = ⟨true, none,
            { idem := (pkOf env, buildIdemItem cfg nowStr nowUnix env) :: s.idem,
              events := ((env.tenant_id, skOf nowStr env),
                buildEventItem cfg nowStr nowUnix env status reason) :: s.events }⟩)
    ∧ (((s.idem.lookup (pkOf env)).isSome ∨
          (s.events.lookup (env.tenant_id, skOf nowStr env)).isSome) →
      persistEventOnce cfg nowStr nowUnix s env status reason none = ⟨false, none, s⟩)
    ∧ (∀ e : DBErr, isDuplicateErr e = true →
      persistEventOnce cfg nowStr nowUnix s env status reason (some e) = ⟨false, none, s⟩)
    ∧ (∀ e : DBErr, isDuplicateErr e = false →
      persistEventOnce cfg nowStr nowUnix s env status reason (some e) = ⟨false, some e, s⟩)
    ∧ (∀ fault : Option DBErr,
      (persistEventOnce cfg nowStr nowUnix s env status reason fault).written = true →
      (persistEventOnce cfg nowStr nowUnix s env status reason fault).err = none) := by
  refine ⟨?_, ?_, ?_, ?_, ?_⟩
  · intro ⟨h1, h2⟩
    rw [persistEventOnce_none_eq]
    simp [h1, h2]
  · intro h
    rw [persistEventOnce_none_eq]
    rcases h with h | h <;> simp [h]
  · intro e he
    rw [persistEventOnce_fault_eq]
    simp [he]
  · intro e he
    rw [persistEventOnce_fault_eq]
    simp [he]
  · intro fault hw
    cases fault with
    | none =>
      rw [persistEventOnce_none_eq] at hw ⊢
      by_cases hc : (s.idem.lookup (pkOf env)).isSome
          || (s.events.lookup (env.tenant_id, skOf nowStr env)).isSome
      · rw [if_pos hc] at hw
        exact absurd hw (by simp)
      · rw [if_neg hc]
    | some e =>
      rw [persistEventOnce_fault_eq] at hw ⊢
      by_cases hd : isDuplicateErr e
      · rw [if_pos hd] at hw
        exact absurd hw (by simp)
      · rw [if_neg hd] at hw
        exact absurd hw (by simp)

/-- Witness for C2 at concrete inputs: a fresh write succeeds; a write whose
dedup key exists is `(false, nil)`; a conditional-check-failure error is
`(false, nil)`; a throttling error propagates; a successful call has a nil
error. -/
theorem persistEventOnce_three_outcomes_witness :
    (persistEventOnce cfg0 "T0" 0 emptyStore envA "READY" "" none).written = true
    ∧ persistEventOnce cfg0 "T1" 0 dupStore envB "READY" "" none = ⟨false, none, dupStore⟩
    ∧ persistEventOnce cfg0 "T0" 0 emptyStore envA "READY" ""
        (some (.conditionalCheckFailed "conditional request failed"))
      = ⟨false, none, emptyStore⟩
    ∧ persistEventOnce cfg0 "T0" 0 emptyStore envA "READY" ""
        (some (.otherFailure "throughput exceeded"))
      = ⟨false, some (.otherFailure "throughput exceeded"), emptyStore⟩
    ∧ (persistEventOnce cfg0 "T0" 0 emptyStore envA "READY" "" none).err = none := by
  have h := persistEventOnce_three_outcomes cfg0 "T0" 0 emptyStore envA "READY" ""
  have hdup := persistEventOnce_three_outcomes cfg0 "T1" 0 dupStore envB "READY" ""
  refine ⟨?_, ?_, ?_, ?_, ?_⟩
  · rw [h.1 ⟨rfl, rfl⟩]
  · exact hdup.2.1 (Or.inl (by decide))
  · exact h.2.2.1 _ rfl
  · exact h.2.2.2.1 _ (by decide)
  · exact h.2.2.2.2 none (by decide)

/-- C10: the `ttl` attribute is attached to the deduplication item and to the
ledger item exactly when the corresponding retention-days configuration is
strictly positive — a zero or negative retention attaches no expiry — and a
successful `persistEventOnce` writes exactly these two built items. -/
theorem ttl_present_iff_positive_retention (cfg : AppConfig) (nowStr : String)
    (nowUnix : Int) (s : Store) (env : Envelope) (status reason : String) :
    ((buildIdemItem cfg nowStr nowUnix env).ttl = none ↔ cfg.idemTTLDays ≤ 0)
    ∧ ((buildEventItem cfg nowStr nowUnix env status reason).ttl = none
        ↔ cfg.eventsTTLDays ≤ 0)
    ∧ (cfg.idemTTLDays > 0 →
        (buildIdemItem cfg nowStr nowUnix env).ttl
          = some (nowUnix + cfg.idemTTLDays * 86400))
    ∧ (cfg.eventsTTLDays > 0 →
        (buildEventItem cfg nowStr nowUnix env status reason).ttl
          = some (nowUnix + cfg.eventsTTLDays * 86400))
    ∧ ((s.idem.lookup (pkOf env) = none ∧
          s.events.lookup (env.tenant_id, skOf nowStr env) = none) →
        persistEventOnce cfg nowStr nowUnix s env status reason none
          = ⟨true, none,
              { idem := (pkOf env, buildIdemItem cfg nowStr nowUnix env) :: s.idem,
                events := ((env.tenant_id, skOf nowStr env),
                  buildEventItem cfg nowStr nowUnix env status reason) :: s.events }⟩) := by
  refine ⟨?_, ?_, ?_, ?_, ?_⟩
  · by_cases h : cfg.idemTTLDays > 0
    · simp only [buildIdemItem, if_pos h]
      constructor
      · intro hc
        exact absurd hc (by simp)
      · intro hc
        omega
    · simp only [buildIdemItem, if_neg h]
      simp only [true_iff]
      omega
  · by_cases h : cfg.eventsTTLDays > 0
    · simp only [buildEventItem, if_pos h]
      constructor
      · intro hc
        exact absurd hc (by simp)
      · intro hc
        omega
    · simp only [buildEventItem, if_neg h]
      simp only [true_iff]
      omega
  · intro h
    simp [buildIdemItem, h]
  · intro h
    simp [buildEventItem, h]
  · intro ⟨h1, h2⟩
    rw [persistEventOnce_none_eq]
    simp [h1, h2]

/-- Witness for C10 at concrete inputs: negative retention attaches no expiry
on either item, positive retention attaches one, and the fresh dual-write
stores the built items. -/
theorem ttl_present_iff_positive_retention_witness :
    (buildIdemItem cfgNeg "T0" 100 envA).ttl = none
    ∧ (buildEventItem cfgNeg "T0" 100 envA "READY" "").ttl = none
    ∧ (buildIdemItem cfgPos "T0" 100 envA).ttl = some (100 + 7 * 86400)
    ∧ (buildEventItem cfgPos "T0" 100 envA "READY" "").ttl = some (100 + 90 * 86400)
    ∧ persistEventOnce cfgNeg "T0" 100 emptyStore envA "READY" "" none
      = ⟨true, none,
          { idem := (pkOf envA, buildIdemItem cfgNeg "T0" 100 envA) :: emptyStore.idem,
            events := ((envA.tenant_id, skOf "T0" envA),
              buildEventItem cfgNeg "T0" 100 envA "READY" "") :: emptyStore.events }⟩ := by
  have hn := ttl_present_iff_positive_retention cfgNeg "T0" 100 emptyStore envA "READY" ""
  have hp := ttl_present_iff_positive_retention cfgPos "T0" 100 emptyStore envA "READY" ""
  exact ⟨hn.1.mpr (by decide), hn.2.1.mpr (by decide),
    hp.2.2.1 (by decide), hp.2.2.2.1 (by decide), hn.2.2.2.2 ⟨rfl, rfl⟩⟩

/-- C4: when the schema loads and evaluates without error, the verdict is
`valid = (error count = 0)`: a clean evaluation yields `(true, "")` and a
nonzero error count yields `(false, reason)` where `reason` is the
`"; "`-join of all error descriptions in validator-reported order.  The
reason is deterministic: `validate` is a total function of the cache, the
repository and the envelope. -/
theorem validate_verdict_and_reason (repo : SchemaRepo) (c : SchemaCache)
    (env : Envelope) (sf : SchemaFn) (msgs : List String)
    (hload : (loadSchema repo c env.event_type).1 = .ok sf)
    (heval : sf env.payload = .ok msgs) :
    ((validate repo c env).1.1 = true ↔ msgs = [])
    ∧ (msgs = [] → (validate repo c env).1 = (true, ""))
    ∧ (msgs ≠ [] → (validate repo c env).1 = (false, String.intercalate "; " msgs)) := by
  rcases hls : loadSchema repo c env.event_type with ⟨res, c2⟩
  rw [hls] at hload
  simp only at hload
  subst hload
  unfold validate
  rw [hls]
  simp only [heval]
  by_cases hm : msgs = []
  · subst hm
    simp
  · simp [hm, List.isEmpty_iff]

/-- Witness for C4 at concrete inputs: an accepting schema yields
`(true, "")`; a schema reporting one error yields `(false, reason)` with the
joined reason. -/
theorem validate_verdict_and_reason_witness :
    (validate repoOK [] envA).1 = (true, "")
    ∧ (validate repoReject [] envB).1
      = (false, String.intercalate "; " ["email: email is required"]) := by
  have hok := validate_verdict_and_reason repoOK [] envA sfAccept [] rfl rfl
  have hbad := validate_verdict_and_reason repoReject [] envB sfReject
    ["email: email is required"] rfl rfl
  exact ⟨hok.2.1 rfl, hbad.2.2 (by simp)⟩

/-- C3: an event type whose schema cannot be read or compiled does not fail
the pipeline: `validate` degrades to `(false, reason)` with `reason` of the
form `schema load error: <detail>`, the handler then derives status INVALID,
and the event is still persisted (the dual-write succeeds and appends a
ledger record with status INVALID, and `handleRecord` acknowledges the
message). -/
theorem validate_schema_load_error_degrades (repo : SchemaRepo) (c : SchemaCache)
    (env : Envelope)
    (hmiss : c.lookup env.event_type = none)
    (hfail : (∃ m, repo.readFile (env.event_type ++ ".json") = .error m)
      ∨ (∃ doc m, repo.readFile (env.event_type ++ ".json") = .ok doc
          ∧ repo.compile doc = .error m)) :
    (∃ d, (validate repo c env).1 = (false, "schema load error: " ++ d))
    ∧ (∀ (decode : Decoder) (body : String) (cfg : AppConfig) (nowStr : String)
        (nowUnix : Int) (s : Store),
        decode body = .ok env →
        env.tenant_id ≠ "" → env.event_id ≠ "" → env.event_type ≠ "" →
        s.idem.lookup (pkOf env) = none →
        s.events.lookup (env.tenant_id, skOf nowStr env) = none →
        (handleRecord decode repo cfg nowStr nowUnix none c s body).1 = none
        ∧ ∃ evt : EventItem,
            (handleRecord decode repo cfg nowStr nowUnix none c s body).2.2.events
              = ((env.tenant_id, skOf nowStr env), evt) :: s.events
            ∧ evt.status = "INVALID") := by
  have hload : ∃ d, (loadSchema repo c env.event_type).1 = .error d := by
    rcases hfail with ⟨m, hm⟩ | ⟨doc, m, hdoc, hm⟩
    · exact ⟨"embed read schema " ++ (env.event_type ++ ".json") ++ ": " ++ m, by
        simp [loadSchema, hmiss, hm]⟩
    · exact ⟨"compile schema: " ++ m, by
        simp [loadSchema, hmiss, hdoc, hm]⟩
  rcases hload with ⟨d, hd⟩
  rcases hls : loadSchema repo c env.event_type with ⟨res, c2⟩
  rw [hls] at hd
  simp only at hd
  subst hd
  have hv : validate repo c env = ((false, "schema load error: " ++ d), c2) := by
    unfold validate
    rw [hls]
  refine ⟨⟨d, by rw [hv]⟩, ?_⟩
  intro decode body cfg nowStr nowUnix s hdec ht he hy h1 h2
  have hfields : (env.tenant_id = "" || env.event_id = "" || env.event_type = "") = false := by
    simp [ht, he, hy]
  have hpersist := (persistEventOnce_three_outcomes cfg nowStr nowUnix s env
    "INVALID" ("schema load error: " ++ d)).1 ⟨h1, h2⟩
  have hh : handleRecord decode repo cfg nowStr nowUnix none c s body
      = (none, c2,
          { idem := (pkOf env, buildIdemItem cfg nowStr nowUnix env) :: s.idem,
            events := ((env.tenant_id, skOf nowStr env),
              buildEventItem cfg nowStr nowUnix env "INVALID"
                ("schema load error: " ++ d)) :: s.events }) := by
    unfold handleRecord
    rw [hdec]
    simp only [hfields]
    rw [hv]
    simp only [Bool.false_eq_true, if_false]
    rw [hpersist]
  rw [hh]
  exact ⟨rfl,
    ⟨buildEventItem cfg nowStr nowUnix env "INVALID" ("schema load error: " ++ d),
      rfl, rfl⟩⟩

/-- Witness for C3 at a concrete input: with no readable schema document,
validation degrades to a `schema load error` reason and the handler still
persists the event with status INVALID and acknowledges it. -/
theorem validate_schema_load_error_degrades_witness :
    (∃ d, (validate repoMissing [] envA).1 = (false, "schema load error: " ++ d))
    ∧ (handleRecord decodeFix repoMissing cfg0 "T0" 0 none [] emptyStore "A").1 = none
    ∧ ∃ evt : EventItem,
        (handleRecord decodeFix repoMissing cfg0 "T0" 0 none [] emptyStore "A").2.2.events
          = ((envA.tenant_id, skOf "T0" envA), evt) :: emptyStore.events
        ∧ evt.status = "INVALID" := by
  have h := validate_schema_load_error_degrades repoMissing [] envA rfl
    (Or.inl ⟨"open " ++ ("user.created" ++ ".json") ++ ": file does not exist", rfl⟩)
  have h2 := h.2 decodeFix "A" cfg0 "T0" 0 emptyStore rfl (by decide) (by decide)
    (by decide) rfl rfl
  exact ⟨h.1, h2.1, h2.2⟩

/-- C6: `handleRecord` fails — with the schema repository, store and fault
oracle left fully arbitrary, so neither validation nor persistence can
influence the outcome, and with the cache and store returned unchanged — on
every body that does not decode, and on every decoded envelope with an
empty `tenant_id`, `event_id` or `event_type`. -/
theorem handleRecord_rejects_malformed (decode : Decoder) (repo : SchemaRepo)
    (cfg : AppConfig) (nowStr : String) (nowUnix : Int) (fault : Option DBErr)
    (c : SchemaCache) (s : Store) (body : String) :
    (∀ e, decode body = .error e →
      handleRecord decode repo cfg nowStr nowUnix fault c s body
        = (some ("invalid JSON: " ++ e), c, s))
    ∧ (∀ env, decode body = .ok env →
      (env.tenant_id = "" ∨ env.event_id = "" ∨ env.event_type = "") →
      handleRecord decode repo cfg nowStr nowUnix fault c s body
        = (some "missing required envelope fields", c, s)) := by
  constructor
  · intro e he
    unfold handleRecord
    rw [he]
  · intro env henv hempty
    unfold handleRecord
    rw [henv]
    have hb : (env.tenant_id = "" || env.event_id = "" || env.event_type = "") = true := by
      rcases hempty with h | h | h <;> simp [h]
    simp only [hb, if_true]

/-- Witness for C6 at concrete inputs: a non-JSON body fails decoding, and an
envelope with an empty tenant id is rejected, in both cases before any store
interaction. -/
theorem handleRecord_rejects_malformed_witness :
    handleRecord decodeFix repoOK cfg0 "T0" 0 none [] emptyStore "Z"
      = (some ("invalid JSON: " ++ "unexpected end of JSON input"), [], emptyStore)
    ∧ handleRecord decodeFix repoOK cfg0 "T0" 0 none [] emptyStore "N"
      = (some "missing required envelope fields", [], emptyStore) := by
  have h := handleRecord_rejects_malformed decodeFix repoOK cfg0 "T0" 0 none [] emptyStore
  exact ⟨(h "Z").1 "unexpected end of JSON input" rfl,
    (h "N").2 envNoTenant rfl (Or.inl rfl)⟩

/-- C7: batch semantics of `handler`.  Processing runs in delivery order:
whenever the prefix of the batch succeeds and the next record fails, the
handler returns exactly that failure with the state as of the failure,
leaving the remaining records unprocessed; and the handler returns `nil`
precisely when every record of the batch, processed in order, succeeds. -/
theorem handler_fail_fast (decode : Decoder) (repo : SchemaRepo) (cfg : AppConfig)
    (nowStr : String) (nowUnix : Int) (fault : Option DBErr) :
    (∀ (pre : List String) (b : String) (rest : List String) (c : SchemaCache)
        (s : Store) (c1 : SchemaCache) (s1 : Store) (c2 : SchemaCache) (s2 : Store)
        (e : String),
      handler decode repo cfg nowStr nowUnix fault c s pre = (none, c1, s1) →
      handleRecord decode repo cfg nowStr nowUnix fault c1 s1 b = (some e, c2, s2) →
      handler decode repo cfg nowStr nowUnix fault c s (pre ++ b :: rest)
        = (some e, c2, s2))
    ∧ (∀ (bodies : List String) (c : SchemaCache) (s : Store),
      (handler decode repo cfg nowStr nowUnix fault c s bodies).1 = none
        ↔ batchOk decode repo cfg nowStr nowUnix fault c s bodies = true) := by
  constructor
  · intro pre b rest
    induction pre with
    | nil =>
      intro c s c1 s1 c2 s2 e h0 hb
      unfold handler at h0
      obtain ⟨rfl, rfl⟩ : c = c1 ∧ s = s1 := by
        simpa using h0
      rw [List.nil_append]
      unfold handler
      rw [hb]
    | cons p ps ih =>
      intro c s c1 s1 c2 s2 e h0 hb
      rcases hp : handleRecord decode repo cfg nowStr nowUnix fault c s p with ⟨err, cp, sp⟩
      cases err with
      | some ep =>
        unfold handler at h0
        simp only [hp] at h0
        exact absurd h0 (by simp)
      | none =>
        unfold handler at h0
        simp only [hp] at h0
        show handler decode repo cfg nowStr nowUnix fault c s (p :: (ps ++ b :: rest))
          = (some e, c2, s2)
        unfold handler
        simp only [hp]
        exact ih cp sp c1 s1 c2 s2 e h0 hb
  · intro bodies
    induction bodies with
    | nil =>
      intro c s
      simp [handler, batchOk]
    | cons p ps ih =>
      intro c s
      rcases hp : handleRecord decode repo cfg nowStr nowUnix fault c s p with ⟨err, cp, sp⟩
      cases err with
      | some ep =>
        unfold handler batchOk
        simp [hp]
      | none =>
        unfold handler batchOk
        simp only [hp]
        exact ih cp sp

/-- Witness for C7 at a concrete input: after an empty successful prefix, a
batch whose first record fails to decode returns exactly that failure
without touching cache or store, and a batch of one well-formed record is
fully processed successfully. -/
theorem handler_fail_fast_witness :
    handler decodeFix repoOK cfg0 "T0" 0 none [] emptyStore ([] ++ "Z" :: ["A"])
      = (some ("invalid JSON: " ++ "unexpected end of JSON input"), [], emptyStore)
    ∧ (handler decodeFix repoOK cfg0 "T0" 0 none [] emptyStore ["A"]).1 = none := by
  have h := handler_fail_fast decodeFix repoOK cfg0 "T0" 0 none
  refine ⟨h.1 [] "Z" ["A"] [] emptyStore [] emptyStore [] emptyStore
      ("invalid JSON: " ++ "unexpected end of JSON input") rfl rfl, ?_⟩
  exact (h.2 ["A"] [] emptyStore).mpr (by decide)

/-- C8: whenever the writer reports a duplicate — `written = false` with a
nil error, whatever the envelope's validity and derived status — the message
is acknowledged: `handleRecord` returns `nil`, never an error. -/
theorem handleRecord_duplicate_ack (decode : Decoder) (repo : SchemaRepo)
    (cfg : AppConfig) (nowStr : String) (nowUnix : Int) (fault : Option DBErr)
    (c : SchemaCache) (s : Store) (body : String) (env : Envelope)
    (hdec : decode body = .ok env)
    (ht : env.tenant_id ≠ "") (he : env.event_id ≠ "") (hy : env.event_type ≠ "")
    (_hw : (persistEventOnce cfg nowStr nowUnix s env
        (if (validate repo c env).1.1 then "READY" else "INVALID")
        (validate repo c env).1.2 fault).written = false)
    (herr : (persistEventOnce cfg nowStr nowUnix s env
        (if (validate repo c env).1.1 then "READY" else "INVALID")
        (validate repo c env).1.2 fault).err = none) :
    (handleRecord decode repo cfg nowStr nowUnix fault c s body).1 = none := by
  unfold handleRecord
  rw [hdec]
  have hb : (env.tenant_id = "" || env.event_id = "" || env.event_type = "") = false := by
    simp [ht, he, hy]
  simp only [hb, Bool.false_eq_true, if_false]
  rcases hv : validate repo c env with ⟨⟨valid, reason⟩, c2⟩
  rw [hv] at herr
  simp only at herr
  simp only [hv]
  rcases hr : persistEventOnce cfg nowStr nowUnix s env
      (if valid then "READY" else "INVALID") reason fault with ⟨w, err, s2⟩
  rw [hr] at herr
  simp only at herr
  subst herr
  simp [hr]

/-- Witness for C8 at a concrete input: with the (t1, e1) idempotency record
already present, redelivery of the same event is acknowledged with `nil`. -/
theorem handleRecord_duplicate_ack_witness :
    (handleRecord decodeFix repoOK cfg0 "T1" 0 none [] dupStore "B").1 = none := by
  exact handleRecord_duplicate_ack decodeFix repoOK cfg0 "T1" 0 none [] dupStore "B" envB
    rfl (by decide) (by decide) (by decide) (by decide) rfl

/-- The accumulator only grows during `String.intercalate.go`. -/
theorem intercalate_go_length (s : String) : ∀ (xs : List String) (acc : String),
    acc.length ≤ (String.intercalate.go acc s xs).length
  | [], acc => by simp [String.intercalate.go]
  | x :: xs, acc => by
    have h := intercalate_go_length s xs (acc ++ s ++ x)
    simp only [String.intercalate.go] at h ⊢
    refine le_trans ?_ h
    simp only [String.length_append]
    omega

/-- A string of length zero is the empty string. -/
theorem string_eq_empty_of_length (s : String) (h : s.length = 0) : s = "" := by
  cases s with
  | mk data =>
    simp only [String.length, List.length_eq_zero] at h
    rw [h]

/-- Appending cannot erase a nonempty left part. -/
theorem append_ne_empty_left (a b : String) (ha : a ≠ "") : a ++ b ≠ "" := by
  intro hz
  apply ha
  apply string_eq_empty_of_length
  have := congrArg String.length hz
  rw [String.length_append] at this
  simp at this
  exact this.1

/-- Joining a list of error descriptions whose head is nonempty yields a
nonempty reason. -/
theorem intercalate_ne_empty (m : String) (rest : List String) (hm : m ≠ "") :
    String.intercalate "; " (m :: rest) ≠ "" := by
  have h1 : m.length ≤ (String.intercalate "; " (m :: rest)).length := by
    simpa [String.intercalate] using intercalate_go_length "; " rest m
  intro hz
  rw [hz] at h1
  exact hm (string_eq_empty_of_length m (Nat.le_zero.mp h1))

/-- When every error description the compiled schema can report for this
payload is nonempty — as gojsonschema guarantees — `validate` returns an
empty reason exactly on a valid verdict. -/
theorem validate_reason_spec (repo : SchemaRepo) (c : SchemaCache) (env : Envelope)
    (hne : ∀ sf : SchemaFn, (loadSchema repo c env.event_type).1 = .ok sf →
      (∀ m, sf env.payload = .error m → m ≠ "")
      ∧ (∀ msgs, sf env.payload = .ok msgs → ∀ x ∈ msgs, x ≠ "")) :
    ((validate repo c env).1.1 = true → (validate repo c env).1.2 = "")
    ∧ ((validate repo c env).1.1 = false → (validate repo c env).1.2 ≠ "") := by
  rcases hls : loadSchema repo c env.event_type with ⟨res, c2⟩
  cases res with
  | error e =>
    have hv : validate repo c env = ((false, "schema load error: " ++ e), c2) := by
      simp [validate, hls]
    rw [hv]
    refine ⟨by simp, fun _ => ?_⟩
    exact append_ne_empty_left _ _ (by decide)
  | ok sf =>
    have hsf := hne sf (by rw [hls])
    cases hev : sf env.payload with
    | error m =>
      have hv : validate repo c env = ((false, m), c2) := by
        simp [validate, hls, hev]
      rw [hv]
      exact ⟨by simp, fun _ => hsf.1 m hev⟩
    | ok msgs =>
      cases msgs with
      | nil =>
        have hv : validate repo c env = ((true, ""), c2) := by
          simp [validate, hls, hev]
        rw [hv]
        exact ⟨fun _ => rfl, by simp⟩
      | cons x rest =>
        have hv : validate repo c env
            = ((false, String.intercalate "; " (x :: rest)), c2) := by
          simp [validate, hls, hev]
        rw [hv]
        refine ⟨by simp, fun _ => ?_⟩
        exact intercalate_ne_empty x rest (hsf.2 _ hev x (by simp))

/-- C9: in the ledger record written by a successful run of the pipeline,
the `reason` attribute is present exactly when the record's `status` is
INVALID, and absent when it is READY — given that the compiled schema only
ever reports nonempty error descriptions, which gojsonschema guarantees. -/
theorem ledger_reason_iff_invalid (decode : Decoder) (repo : SchemaRepo)
    (cfg : AppConfig) (nowStr : String) (nowUnix : Int)
    (c : SchemaCache) (s : Store) (body : String) (env : Envelope)
    (hdec : decode body = .ok env)
    (ht : env.tenant_id ≠ "") (he : env.event_id ≠ "") (hy : env.event_type ≠ "")
    (h1 : s.idem.lookup (pkOf env) = none)
    (h2 : s.events.lookup (env.tenant_id, skOf nowStr env) = none)
    (hne : ∀ sf : SchemaFn, (loadSchema repo c env.event_type).1 = .ok sf →
      (∀ m, sf env.payload = .error m → m ≠ "")
      ∧ (∀ msgs, sf env.payload = .ok msgs → ∀ x ∈ msgs, x ≠ "")) :
    ∃ evt : EventItem,
      (handleRecord decode repo cfg nowStr nowUnix none c s body).2.2.events
        = ((env.tenant_id, skOf nowStr env), evt) :: s.events
      ∧ (evt.reason.isSome ↔ evt.status = "INVALID") := by
  have hspec := validate_reason_spec repo c env hne
  unfold handleRecord
  rw [hdec]
  have hb : (env.tenant_id = "" || env.event_id = "" || env.event_type = "") = false := by
    simp [ht, he, hy]
  simp only [hb, Bool.false_eq_true, if_false]
  rcases hv : validate repo c env with ⟨⟨valid, reason⟩, c2⟩
  rw [hv] at hspec
  simp only at hspec
  have hpersist := (persistEventOnce_three_outcomes cfg nowStr nowUnix s env
    (if valid then "READY" else "INVALID") reason).1 ⟨h1, h2⟩
  simp only [hv]
  rw [hpersist]
  refine ⟨buildEventItem cfg nowStr nowUnix env
    (if valid then "READY" else "INVALID") reason, rfl, ?_⟩
  cases valid with
  | true =>
    have hre : reason = "" := hspec.1 rfl
    subst hre
    simp [buildEventItem]
  | false =>
    have hre : reason ≠ "" := hspec.2 rfl
    simp [buildEventItem, hre]

/-- Witness for C9 at a concrete input: a rejected envelope is persisted with
status INVALID and a present, nonempty reason attribute. -/
theorem ledger_reason_iff_invalid_witness :
    ∃ evt : EventItem,
      (handleRecord decodeFix repoReject cfg0 "T0" 0 none [] emptyStore "B").2.2.events
        = ((envB.tenant_id, skOf "T0" envB), evt) :: emptyStore.events
      ∧ (evt.reason.isSome ↔ evt.status = "INVALID") := by
  apply ledger_reason_iff_invalid decodeFix repoReject cfg0 "T0" 0 [] emptyStore "B" envB
    rfl (by decide) (by decide) (by decide) rfl rfl
  intro sf hsf
  have hs : (Except.ok sfReject : Except String SchemaFn) = Except.ok sf := hsf
  injection hs with hs
  subst hs
  constructor
  · intro m hm
    exact absurd hm (by simp [sfReject])
  · intro msgs hm x hx
    have hmsgs : msgs = ["email: email is required"] := by
      have : (Except.ok ["email: email is required"] : Except String (List String))
          = Except.ok msgs := hm
      injection this with h
      exact h.symm
    subst hmsgs
    simp only [List.mem_singleton] at hx
    subst hx
    decide
